import Mathlib

/-!
Shallow embedding of `backend/drive/upload.go`: the Google Drive resumable
upload client (session negotiation in `Fs.Upload`, the chunk transfer loop in
`resumableUpload.Upload`, the per-chunk send in `resumableUpload.transferChunk`,
and the status probe in `resumableUpload.transferStatus`).

Modelling conventions:
* `int64` sizes and offsets are `Int` (no claim exercises overflow);
  HTTP status codes are `Nat`.
* The network environment is a *script*: a list of `HttpOutcome`s, one
  consumed per HTTP round trip, in order.  An exhausted script behaves as a
  transport failure (the environment gives no response).
* JSON decoding of a response body into the metadata record is modelled by
  its outcome (`BodyDecode`): success with a decoded value — which is `none`
  for a JSON `null` body, exactly as Go's `json` decoding into a pointer —
  or failure.
* Every network call is recorded in a trace of `Event`s; the `paced` flag of
  an event records whether the source issues that call inside `pacer.Call`
  (negotiation, lines 74–97, and chunk sends, lines 209–218) or directly via
  `client.Do` (the status probe, line 135).
* The process-wide pacer (`fs.Pacer.Call`) and the retry classifier
  (`shouldRetry` from `drive.go`) are code of this repository that is not
  under `src/`; they are modelled from the spec where noted.
-/

namespace DriveUpload

/-- The metadata record (`drive.File`) returned by the server when the upload
completes; only the identity of the record matters to the claims. -/
structure DriveFile where
  id : String
deriving DecidableEq

/-- Outcome of decoding a response body as the Metadata JSON: a decode can
succeed with a value (`none` for a JSON `null` body, as Go's decode into a
pointer yields nil) or fail. -/
inductive BodyDecode where
  | ok (f : Option DriveFile)
  | fail (e : String)
deriving DecidableEq

/-- Outcome of one HTTP round trip as seen by the client: either
`client.Do` reports a transport error (no response), or a response with a
status code, headers, and a body. -/
inductive HttpOutcome where
  | transportErr (e : String)
  | response (status : Nat) (headers : List (String × String)) (body : BodyDecode)
deriving DecidableEq

/-- The errors produced by `upload.go`, one constructor per source of error:
transport errors from `client.Do`, `googleapi.CheckResponse` errors for
non-2xx statuses, JSON decode errors, the two `errors.Errorf` cases of
`transferStatus`, and the distinguished retryable
`fserrors.RetryErrorf("Incomplete upload - retry, last error %d", ...)`. -/
inductive UploadErr where
  | transport (e : String)
  | googleapi (status : Nat)
  | decodeErr (e : String)
  | parseRange (r : String)
  | unexpectedCode (status : Nat)
  | incompleteUpload (lastStatus : Nat)
deriving DecidableEq

/-- net/http `Header.Get`: the first value stored under the key, `""` when
the header is absent. -/
def headerGet (headers : List (String × String)) (key : String) : String :=
  match headers.find? (fun p => p.fst == key) with
  | some p => p.snd
  | none => ""

/-- A status code in the 2xx range. -/
def is2xx (status : Nat) : Bool := 200 ≤ status && status ≤ 299

/-- googleapi.CheckResponse: an error unless the status code is 2xx. -/
def checkResponse (status : Nat) : Option UploadErr :=
  if is2xx status then none else some (.googleapi status)

/-- The Content-Range header set by `resumableUpload.makeRequest`
(lines 114–124): `bytes start-(start+reqSize-1)/ContentLength` for a
non-empty chunk, `bytes */ContentLength` for an empty one. -/
def contentRangeHeader (start reqSize contentLength : Int) : String :=
  if reqSize ≠ 0 then
    "bytes " ++ toString start ++ "-" ++ toString (start + reqSize - 1) ++ "/"
      ++ toString contentLength
  else
    "bytes */" ++ toString contentLength

/-- The regular expression `rangeRE` (line 128), anchored as in the source:
the character sequence matches iff it is `0-` followed by one or more
decimal digits; the capture is that digit run. -/
def rangeCapture (s : String) : Option (List Char) :=
  match s.data with
  | '0' :: '-' :: ds =>
    if ds.length ≠ 0 && ds.all Char.isDigit then some ds else none
  | _ => none

/-- The decimal value of a digit run. -/
def digitsToNat (ds : List Char) : Nat :=
  ds.foldl (fun acc c => acc * 10 + (c.toNat - '0'.toNat)) 0

/-- strconv.ParseInt(_, 10, 64) applied to the digit run captured by
`rangeRE`: its decimal value, failing on int64 overflow. -/
def parseInt64 (ds : List Char) : Option Int :=
  if digitsToNat ds < 2 ^ 63 then some (Int.ofNat (digitsToNat ds)) else none

/-- resumableUpload.transferStatus (lines 133–158): interpret one round trip
of the status probe.  Status 200/201 returns the full `ContentLength`; any
other status except 308 is an error; on 308 the `Range` header must match
`rangeRE`, and the parsed capture is returned unchanged as the committed
offset. -/
def transferStatus (contentLength : Int) (outcome : HttpOutcome) :
    Except UploadErr Int :=
  match outcome with
  | .transportErr e => .error (.transport e)
  | .response status headers _ =>
    if status = 201 || status = 200 then .ok contentLength
    else if status ≠ 308 then
      match checkResponse status with
      | some e => .error e
      | none => .error (.unexpectedCode status)
    else
      match rangeCapture (headerGet headers "Range") with
      | some digits =>
        match parseInt64 digits with
        | some n => .ok n
        | none => .error (.parseRange (headerGet headers "Range"))
      | none => .error (.parseRange (headerGet headers "Range"))

/-- resumableUpload.transferChunk (lines 161–192): returns the
status-code/error pair of the Go function together with the new value of
`rx.ret`.  A transport failure reports sentinel code 599; a 308 returns at
once with no body parsing; a non-2xx status reports the CheckResponse error;
a 2xx body is decoded unconditionally into `rx.ret`, a decode failure
reporting sentinel code 598. -/
def transferChunk (outcome : HttpOutcome) (ret : Option DriveFile) :
    Nat × Option UploadErr × Option DriveFile :=
  match outcome with
  | .transportErr e => (599, some (.transport e), ret)
  | .response status _ body =>
    if status = 308 then (status, none, ret)
    else
      match checkResponse status with
      | some e => (status, some e, ret)
      | none =>
        match body with
        | .ok f => (status, none, f)
        | .fail e => (598, some (.decodeErr e), ret)

/-- Modelled from the spec: `shouldRetry` (defined in `drive.go`, outside
`src/`) is the shared error-classification predicate — it decides retry
eligibility of an error and passes the error through unchanged; a nil error
is not retried.  The classification itself is the opaque parameter `pred`. -/
def shouldRetry (pred : UploadErr → Bool) : Option UploadErr → Bool × Option UploadErr
  | none => (false, none)
  | some e => (pred e, some e)

/-- The retry classification inside the chunk-send closure (lines 212–216):
run `shouldRetry`, then override the outcome as success — no retry, no
error — whenever the status code is 308, 201 or 200. -/
def chunkClassify (pred : UploadErr → Bool) (statusCode : Nat)
    (e : Option UploadErr) : Bool × Option UploadErr :=
  if statusCode = 308 || statusCode = 201 || statusCode = 200 then (false, none)
  else shouldRetry pred e

/-- One network call of the interaction trace; `paced` records whether the
source issues the call inside `pacer.Call`. -/
inductive Event where
  | negotiateCall (paced : Bool)
  | chunkCall (paced : Bool) (uri : String) (start reqSize : Int) (contentRange : String)
  | probeCall (paced : Bool)
deriving DecidableEq

/-- The mutable state of a `resumableUpload` run: the remaining server
script, the `rx.ret` field, and the trace of network calls made so far. -/
structure RxState where
  script : List HttpOutcome
  ret : Option DriveFile
  trace : List Event
deriving DecidableEq

/-- Consume the next server response from the script; an exhausted script
behaves as a transport failure (the environment gives no response). -/
def takeResponse : List HttpOutcome → HttpOutcome × List HttpOutcome
  | [] => (.transportErr "no response", [])
  | o :: rest => (o, rest)

/-- One attempt of the chunk-send closure (lines 209–217): consume one
response, run `transferChunk` at the current offset, classify the result.
Returns the new state, the StatusCode, the retry flag, and the error. -/
def chunkAttemptOnce (pred : UploadErr → Bool) (uri : String)
    (start reqSize contentLength : Int) (s : RxState) :
    RxState × Nat × Bool × Option UploadErr :=
  let tr := takeResponse s.script
  let t3 := transferChunk tr.1 s.ret
  let cl := chunkClassify pred t3.1 t3.2.1
  (⟨tr.2, t3.2.2,
      s.trace ++ [.chunkCall true uri start reqSize
        (contentRangeHeader start reqSize contentLength)]⟩,
   t3.1, cl.1, cl.2)

/-- Modelled from the spec: `fs.Pacer.Call` (outside `src/`) is the shared
retry/backoff primitive — it invokes the closure, retries with backoff while
the closure asks for a retry, up to `tries` further attempts, and returns
the closure's last error.  Applied to the chunk-send closure. -/
def pacerCallChunk (pred : UploadErr → Bool) (tries : Nat) (uri : String)
    (start reqSize contentLength : Int) (s : RxState) :
    RxState × Nat × Option UploadErr :=
  let r := chunkAttemptOnce pred uri start reqSize contentLength s
  match tries, r.2.2.1 with
  | t + 1, true => pacerCallChunk pred t uri start reqSize contentLength r.1
  | _, _ => (r.1, r.2.1, r.2.2.2)

/-- How the transfer loop of `resumableUpload.Upload` exits: an early
`return nil, err` after a failed pacer round, or falling out of the loop
when `start` reaches `ContentLength`. -/
inductive LoopExit where
  | earlyErr (e : UploadErr)
  | done
deriving DecidableEq

/-- The per-iteration request size (lines 202–205): the whole remainder,
capped at the configured chunk size. -/
def reqSizeOf (chunkSize contentLength start : Int) : Int :=
  if contentLength - start ≥ chunkSize then chunkSize else contentLength - start

/-- The transfer loop of `resumableUpload.Upload` (lines 201–224): while
`start < ContentLength`, send the next chunk under the pacer; an error from
the pacer round returns early, otherwise advance `start` by `reqSize` and
continue.  `statusCode` is the Go `StatusCode` variable (zero-initialised at
line 198).  `fuel` bounds the number of iterations; `none` means the fuel
ran out before the loop finished. -/
def uploadLoop (pred : UploadErr → Bool) (tries : Nat) (uri : String)
    (chunkSize contentLength : Int) (fuel : Nat) (start : Int)
    (statusCode : Nat) (s : RxState) : Option (RxState × Nat × LoopExit) :=
  if start < contentLength then
    match fuel with
    | 0 => none
    | fuel' + 1 =>
      let reqSize := reqSizeOf chunkSize contentLength start
      let r := pacerCallChunk pred tries uri start reqSize contentLength s
      match r.2.2 with
      | some er => some (r.1, r.2.1, .earlyErr er)
      | none => uploadLoop pred tries uri chunkSize contentLength fuel'
          (start + reqSize) r.2.1 r.1
  else
    some (s, statusCode, .done)

/-- resumableUpload.Upload (lines 196–248): run the transfer loop from
offset 0; an early error is returned as is; otherwise, if `rx.ret` was never
populated the distinguished retryable incomplete-upload error carrying the
last observed status code is returned, else the populated record. -/
def rxUpload (pred : UploadErr → Bool) (tries : Nat) (uri : String)
    (chunkSize contentLength : Int) (fuel : Nat) (s : RxState) :
    Option (RxState × Except UploadErr DriveFile × Nat) :=
  match uploadLoop pred tries uri chunkSize contentLength fuel 0 0 s with
  | none => none
  | some (s1, code, .earlyErr e) => some (s1, .error e, code)
  | some (s1, code, .done) =>
    match s1.ret with
    | none => some (s1, .error (.incompleteUpload code), code)
    | some f => some (s1, .ok f, code)

/-- One attempt of the negotiation closure in `Fs.Upload` (lines 74–97):
perform the round trip, run CheckResponse on a response, classify via
`shouldRetry`.  Returns the retry flag and the outcome handed to the caller
(the status and headers of the successful response). -/
def negotiateOnce (pred : UploadErr → Bool) (outcome : HttpOutcome) :
    Bool × Except UploadErr (Nat × List (String × String)) :=
  match outcome with
  | .transportErr e => ((shouldRetry pred (some (.transport e))).1, .error (.transport e))
  | .response status headers _ =>
    match checkResponse status with
    | some e => ((shouldRetry pred (some e)).1, .error e)
    | none => (false, .ok (status, headers))

/-- Modelled from the spec: the pacer wrapping of the negotiation call
(line 74), with the same bounded-retry semantics as `pacerCallChunk`.
Returns the remaining script, the trace, and the final outcome. -/
def pacerCallNegotiate (pred : UploadErr → Bool) (tries : Nat)
    (script : List HttpOutcome) (trace : List Event) :
    List HttpOutcome × List Event × Except UploadErr (Nat × List (String × String)) :=
  let tr := takeResponse script
  let r := negotiateOnce pred tr.1
  match tries, r.1 with
  | t + 1, true => pacerCallNegotiate pred t tr.2 (trace ++ [Event.negotiateCall true])
  | _, _ => (tr.2, trace ++ [Event.negotiateCall true], r.2)

/-- Fs.Upload (lines 53–111): negotiate the session under the pacer; a
negotiation error is fatal.  On success the session URI is read from the
`Location` header with **no validation** (line 101: `res.Header.Get` returns
`""` when the header is absent), and the chunk loop runs against that URI. -/
def fsUpload (pred : UploadErr → Bool) (tries : Nat) (chunkSize size : Int)
    (fuel : Nat) (negScript chunkScript : List HttpOutcome) :
    Option (Except UploadErr DriveFile × List Event) :=
  let neg := pacerCallNegotiate pred tries negScript []
  match neg.2.2 with
  | .error e => some (.error e, neg.2.1)
  | .ok sh =>
    match rxUpload pred tries (headerGet sh.2 "Location") chunkSize size
        fuel ⟨chunkScript, none, neg.2.1⟩ with
    | none => none
    | some r => some (r.2.1, r.1.trace)

/-- transferStatus together with its network event: the probe issues its
request via `f.client.Do` directly (line 135), not inside `pacer.Call`, so
its event is recorded unpaced. -/
def transferStatusTraced (contentLength : Int) (outcome : HttpOutcome)
    (trace : List Event) : Except UploadErr Int × List Event :=
  (transferStatus contentLength outcome, trace ++ [Event.probeCall false])

/-- The (start, reqSize) pair of every chunk send in a trace, in order. -/
def sentPairs (trace : List Event) : List (Int × Int) :=
  trace.filterMap fun ev =>
    match ev with
    | .chunkCall _ _ start reqSize _ => some (start, reqSize)
    | _ => none

/-- The Content-Range strings of every chunk send in a trace, in order. -/
def chunkRangesSent (trace : List Event) : List String :=
  trace.filterMap fun ev =>
    match ev with
    | .chunkCall _ _ _ _ r => some r
    | _ => none

/-- Number of chunk requests in a trace. -/
def numChunkCalls (trace : List Event) : Nat := (sentPairs trace).length

/-- Whether an event was issued inside `pacer.Call`. -/
def pacedOf : Event → Bool
  | .negotiateCall p => p
  | .chunkCall p _ _ _ _ => p
  | .probeCall p => p

/-- Every network call of the trace was issued inside `pacer.Call`. -/
def allPaced (trace : List Event) : Bool := trace.all pacedOf

/-- How one chunk response updates `rx.ret` (read off `transferChunk`): a
response with 2xx status whose body decodes overwrites `rx.ret` with the
decoded value (possibly `none` for a `null` body); every other outcome
leaves it unchanged. -/
def updateRet (outcome : HttpOutcome) (ret : Option DriveFile) : Option DriveFile :=
  match outcome with
  | .response status _ (.ok f) => if is2xx status then f else ret
  | _ => ret

/-- Whether the upload result is the distinguished incomplete-upload error. -/
def isIncomplete : Except UploadErr DriveFile → Bool
  | .error (.incompleteUpload _) => true
  | _ => false

/-- Whether a script contains a response with terminal success status
200 or 201. -/
def hasTerminalStatus (l : List HttpOutcome) : Bool :=
  l.any fun o =>
    match o with
    | .response s _ _ => s = 200 || s = 201
    | _ => false

/-- Modelled from the spec: a concrete instance of the opaque retry
classification, marking transport errors and 5xx server errors retryable
(spec section 7); used only to instantiate concrete scenarios. -/
def specRetryPred : UploadErr → Bool
  | .transport _ => true
  | .googleapi status => 500 ≤ status
  | _ => false

/-- The shape of the chunk calls made by a completed run of the transfer
loop starting at a given offset: one non-empty block of identical sends per
loop iteration (retries resend the same chunk verbatim), the iterations
contiguous and ascending by exactly `reqSizeOf` until the offset reaches
`contentLength`. -/
inductive ChunkCallBlocks (uri : String) (chunkSize contentLength : Int) :
    Int → List Event → Prop where
  | done (start : Int) (h : ¬ start < contentLength) :
      ChunkCallBlocks uri chunkSize contentLength start []
  | step (start : Int) (k : Nat) (rest : List Event) (h : start < contentLength)
      (ih : ChunkCallBlocks uri chunkSize contentLength
        (start + reqSizeOf chunkSize contentLength start) rest) :
      ChunkCallBlocks uri chunkSize contentLength start
        (List.replicate (k + 1)
          (Event.chunkCall true uri start (reqSizeOf chunkSize contentLength start)
            (contentRangeHeader start (reqSizeOf chunkSize contentLength start) contentLength))
          ++ rest)

/-- The schedule of intervals the spec requires of a successful upload:
starting at `start`, disjoint contiguous ascending intervals of length
`min(chunkSize, remaining)` — i.e. `reqSizeOf` — until `contentLength` is
reached. -/
inductive IsSched (chunkSize contentLength : Int) : Int → List (Int × Int) → Prop where
  | done (start : Int) (h : ¬ start < contentLength) :
      IsSched chunkSize contentLength start []
  | step (start : Int) (rest : List (Int × Int)) (h : start < contentLength)
      (ih : IsSched chunkSize contentLength
        (start + reqSizeOf chunkSize contentLength start) rest) :
      IsSched chunkSize contentLength start
        ((start, reqSizeOf chunkSize contentLength start) :: rest)

/-- Collapse consecutive duplicates: the sequence of distinct chunk ranges
sent, identical retransmissions of a chunk counted once. -/
def dedupAdj : List (Int × Int) → List (Int × Int)
  | [] => []
  | [a] => [a]
  | a :: b :: t => if a = b then dedupAdj (b :: t) else a :: dedupAdj (b :: t)

/-- Total length of a list of intervals. -/
def sumLens (l : List (Int × Int)) : Int := (l.map Prod.snd).sum

/-- transferChunk updates `rx.ret` exactly by the decode-update rule. -/
theorem transferChunk_ret (outcome : HttpOutcome) (ret : Option DriveFile) :
    (transferChunk outcome ret).2.2 = updateRet outcome ret := by
  rcases outcome with e | ⟨status, headers, body⟩
  · rfl
  · by_cases h8 : status = 308
    · subst h8
      rcases body with f | e <;> simp [transferChunk, updateRet, is2xx]
    · by_cases h2 : is2xx status = true
      · rcases body with f | e <;>
          simp [transferChunk, updateRet, checkResponse, h8, h2]
      · rcases body with f | e <;>
          simp [transferChunk, updateRet, checkResponse, h8, h2,
            Bool.not_eq_true _ ▸ h2]

/-- Whenever transferChunk reports no error, its status code is 308 or 2xx. -/
theorem transferChunk_err_none (outcome : HttpOutcome) (ret : Option DriveFile)
    (h : (transferChunk outcome ret).2.1 = none) :
    (transferChunk outcome ret).1 = 308 ∨ is2xx (transferChunk outcome ret).1 = true := by
  rcases outcome with e | ⟨status, headers, body⟩
  · simp [transferChunk] at h
  · by_cases h8 : status = 308
    · subst h8; simp [transferChunk]
    · by_cases h2 : is2xx status = true
      · rcases body with f | e
        · simp [transferChunk, checkResponse, h8, h2]
        · simp [transferChunk, checkResponse, h8, h2] at h
      · rcases body with f | e <;>
          simp [transferChunk, checkResponse, h8, h2] at h

/-- Whenever the chunk classification reports no error, either the status
override fired or the underlying error was already nil. -/
theorem chunkClassify_err_none (pred : UploadErr → Bool) (code : Nat)
    (e : Option UploadErr) (h : (chunkClassify pred code e).2 = none) :
    (code = 308 ∨ code = 201 ∨ code = 200) ∨ e = none := by
  unfold chunkClassify at h
  split at h
  · next hc => left; simp at hc; omega
  · right
    cases e with
    | none => rfl
    | some er => simp [shouldRetry] at h

/-- The chunk classification reports no error or passes through the error
it was given. -/
theorem chunkClassify_err_sub (pred : UploadErr → Bool) (code : Nat)
    (e : Option UploadErr) :
    (chunkClassify pred code e).2 = none ∨ (chunkClassify pred code e).2 = e := by
  unfold chunkClassify
  split
  · left; rfl
  · cases e with
    | none => left; rfl
    | some er => right; rfl

/-- transferChunk never reports the incomplete-upload error: its errors are
transport, CheckResponse or decode errors. -/
theorem transferChunk_not_incomplete (o : HttpOutcome) (ret : Option DriveFile)
    (c : Nat) : (transferChunk o ret).2.1 ≠ some (.incompleteUpload c) := by
  rcases o with e | ⟨status, hs, body⟩
  · simp [transferChunk]
  · by_cases h8 : status = 308
    · subst h8; simp [transferChunk]
    · by_cases h2 : is2xx status = true
      · rcases body with f | e <;> simp [transferChunk, checkResponse, h8, h2]
      · rcases body with f | e <;> simp [transferChunk, checkResponse, h8, h2]

/-- One attempt of the chunk-send closure: exact effect on the state, its
status code is 308 or 2xx whenever it reports no error, and it never
reports the incomplete-upload error. -/
theorem chunkAttemptOnce_spec (pred : UploadErr → Bool) (uri : String)
    (start reqSize contentLength : Int) (s : RxState) :
    ∃ (code : Nat) (again : Bool) (err : Option UploadErr),
      chunkAttemptOnce pred uri start reqSize contentLength s =
        (⟨s.script.drop 1,
          List.foldl (fun r o => updateRet o r) s.ret (s.script.take 1),
          s.trace ++ [Event.chunkCall true uri start reqSize
            (contentRangeHeader start reqSize contentLength)]⟩,
         code, again, err)
      ∧ (err = none → code = 308 ∨ is2xx code = true)
      ∧ (∀ c, err ≠ some (.incompleteUpload c)) := by
  obtain ⟨script, ret, trace⟩ := s
  have hfold : ∀ o : HttpOutcome,
      (transferChunk o ret).2.2
        = List.foldl (fun r o => updateRet o r) ret [o] := by
    intro o; simpa using transferChunk_ret o ret
  have himp : ∀ o : HttpOutcome,
      (chunkClassify pred (transferChunk o ret).1 (transferChunk o ret).2.1).2 = none →
      (transferChunk o ret).1 = 308 ∨ is2xx (transferChunk o ret).1 = true := by
    intro o h
    rcases chunkClassify_err_none pred _ _ h with hc | he
    · rcases hc with h1 | h1 | h1 <;> simp [h1, is2xx]
    · exact transferChunk_err_none o ret he
  cases script with
  | nil =>
    refine ⟨599, pred (.transport "no response"),
      some (.transport "no response"), ?_, ?_, ?_⟩
    · simp [chunkAttemptOnce, takeResponse, transferChunk, chunkClassify,
        shouldRetry]
    · intro h; exact absurd h (by simp)
    · intro c; simp
  | cons o rest =>
    refine ⟨(transferChunk o ret).1,
      (chunkClassify pred (transferChunk o ret).1 (transferChunk o ret).2.1).1,
      (chunkClassify pred (transferChunk o ret).1 (transferChunk o ret).2.1).2,
      ?_, himp o, ?_⟩
    · simp [chunkAttemptOnce, takeResponse, hfold o]
    · intro c
      rcases chunkClassify_err_sub pred (transferChunk o ret).1
          (transferChunk o ret).2.1 with hnone | hsub
      · rw [hnone]; simp
      · rw [hsub]; exact transferChunk_not_incomplete o ret c

/-- One pacer round of chunk sends: some positive number of attempts are
made, every one the same chunk at the same offset with the same
Content-Range; the round consumes one script entry per attempt, applies the
decode-update rule once per consumed response, and its status code is 308
or 2xx whenever it reports no error. -/
theorem pacerCallChunk_spec (pred : UploadErr → Bool) (uri : String)
    (start reqSize contentLength : Int) :
    ∀ (tries : Nat) (s : RxState),
    ∃ (k : Nat) (code : Nat) (err : Option UploadErr),
      pacerCallChunk pred tries uri start reqSize contentLength s =
        (⟨s.script.drop (k + 1),
          List.foldl (fun r o => updateRet o r) s.ret (s.script.take (k + 1)),
          s.trace ++ List.replicate (k + 1) (Event.chunkCall true uri start reqSize
            (contentRangeHeader start reqSize contentLength))⟩,
         code, err)
      ∧ (err = none → code = 308 ∨ is2xx code = true)
      ∧ (∀ c, err ≠ some (.incompleteUpload c)) := by
  intro tries
  induction tries with
  | zero =>
    intro s
    obtain ⟨code, again, err, heq, himp, hninc⟩ :=
      chunkAttemptOnce_spec pred uri start reqSize contentLength s
    refine ⟨0, code, err, ?_, himp, hninc⟩
    cases hb : again <;>
      simp [pacerCallChunk, heq, hb, List.replicate_succ]
  | succ t ih =>
    intro s
    obtain ⟨code, again, err, heq, himp, hninc⟩ :=
      chunkAttemptOnce_spec pred uri start reqSize contentLength s
    cases hb : again with
    | false =>
      refine ⟨0, code, err, ?_, himp, hninc⟩
      simp [pacerCallChunk, heq, hb, List.replicate_succ]
    | true =>
      obtain ⟨k, code1, err1, heq1, himp1, hninc1⟩ :=
        ih ⟨s.script.drop 1,
          List.foldl (fun r o => updateRet o r) s.ret (s.script.take 1),
          s.trace ++ [Event.chunkCall true uri start reqSize
            (contentRangeHeader start reqSize contentLength)]⟩
      refine ⟨k + 1, code1, err1, ?_, himp1, hninc1⟩
      have hstep : pacerCallChunk pred (t + 1) uri start reqSize contentLength s
          = pacerCallChunk pred t uri start reqSize contentLength
              ⟨s.script.drop 1,
               List.foldl (fun r o => updateRet o r) s.ret (s.script.take 1),
               s.trace ++ [Event.chunkCall true uri start reqSize
                 (contentRangeHeader start reqSize contentLength)]⟩ := by
        simp [pacerCallChunk, heq, hb]
      rw [hstep, heq1]
      have h1 : (1 : Nat) + (k + 1) = k + 1 + 1 := by omega
      simp only [List.drop_drop, ← List.foldl_append, ← List.take_add, h1,
        List.append_assoc, List.singleton_append, ← List.replicate_succ]

/-- The transfer loop exits at once, successfully, when the offset has
already reached the total. -/
theorem uploadLoop_ge (pred : UploadErr → Bool) (tries : Nat) (uri : String)
    (chunkSize contentLength : Int) (fuel : Nat) (start : Int) (code0 : Nat)
    (s : RxState) (h : ¬ start < contentLength) :
    uploadLoop pred tries uri chunkSize contentLength fuel start code0 s
      = some (s, code0, .done) := by
  cases fuel <;> simp [uploadLoop, h]

/-- With no fuel and bytes remaining, the model reports fuel exhaustion. -/
theorem uploadLoop_zero_lt (pred : UploadErr → Bool) (tries : Nat) (uri : String)
    (chunkSize contentLength : Int) (start : Int) (code0 : Nat)
    (s : RxState) (h : start < contentLength) :
    uploadLoop pred tries uri chunkSize contentLength 0 start code0 s = none := by
  simp [uploadLoop, h]

/-- One unfolding of the transfer loop when bytes remain: run a pacer round
for the chunk at the current offset, return early on error, else advance by
the request size. -/
theorem uploadLoop_succ_lt (pred : UploadErr → Bool) (tries : Nat) (uri : String)
    (chunkSize contentLength : Int) (fuel : Nat) (start : Int) (code0 : Nat)
    (s : RxState) (h : start < contentLength) :
    uploadLoop pred tries uri chunkSize contentLength (fuel + 1) start code0 s
      = match (pacerCallChunk pred tries uri start
            (reqSizeOf chunkSize contentLength start) contentLength s).2.2 with
        | some er => some
            ((pacerCallChunk pred tries uri start
                (reqSizeOf chunkSize contentLength start) contentLength s).1,
             (pacerCallChunk pred tries uri start
                (reqSizeOf chunkSize contentLength start) contentLength s).2.1,
             .earlyErr er)
        | none => uploadLoop pred tries uri chunkSize contentLength fuel
            (start + reqSizeOf chunkSize contentLength start)
            (pacerCallChunk pred tries uri start
              (reqSizeOf chunkSize contentLength start) contentLength s).2.1
            (pacerCallChunk pred tries uri start
              (reqSizeOf chunkSize contentLength start) contentLength s).1 := by
  simp [uploadLoop, h]

/-- Master invariant of the transfer loop: the trace grows only by paced
chunk calls, shaped as `ChunkCallBlocks` when the loop completes; when
bytes remain at entry, the chunk at the entry offset is sent; the script is
consumed in order, each consumed response folded through the decode-update
rule into `rx.ret`; and on normal completion the final status code is the
initial one (no chunk sent) or a 308 or 2xx. -/
theorem uploadLoop_spec (pred : UploadErr → Bool) (tries : Nat) (uri : String)
    (chunkSize contentLength : Int) :
    ∀ (fuel : Nat) (start : Int) (code0 : Nat) (s s1 : RxState)
      (code : Nat) (ex : LoopExit),
    uploadLoop pred tries uri chunkSize contentLength fuel start code0 s
      = some (s1, code, ex) →
    (∃ Δ, s1.trace = s.trace ++ Δ
      ∧ (∀ ev ∈ Δ, pacedOf ev = true)
      ∧ (start < contentLength →
          Event.chunkCall true uri start (reqSizeOf chunkSize contentLength start)
            (contentRangeHeader start (reqSizeOf chunkSize contentLength start)
              contentLength) ∈ Δ)
      ∧ (ex = .done → ChunkCallBlocks uri chunkSize contentLength start Δ))
    ∧ (∃ k, s1.script = s.script.drop k
      ∧ s1.ret = List.foldl (fun r o => updateRet o r) s.ret (s.script.take k))
    ∧ (ex = .done → code = code0 ∨ code = 308 ∨ is2xx code = true)
    ∧ (∀ e, ex = LoopExit.earlyErr e → ∀ c, e ≠ UploadErr.incompleteUpload c) := by
  intro fuel
  induction fuel with
  | zero =>
    intro start code0 s s1 code ex h
    by_cases hlt : start < contentLength
    · rw [uploadLoop_zero_lt pred tries uri chunkSize contentLength start code0 s hlt] at h
      exact absurd h (by simp)
    · rw [uploadLoop_ge pred tries uri chunkSize contentLength 0 start code0 s hlt] at h
      simp only [Option.some.injEq, Prod.mk.injEq] at h
      obtain ⟨rfl, rfl, rfl⟩ := h
      refine ⟨⟨[], by simp, by simp, fun hc => absurd hc hlt, fun _ => .done start hlt⟩,
        ⟨0, by simp, by simp⟩, fun _ => Or.inl rfl, fun e he => absurd he (by simp)⟩
  | succ fuel ih =>
    intro start code0 s s1 code ex h
    by_cases hlt : start < contentLength
    · obtain ⟨k0, codeP, errP, heqP, himpP, hnincP⟩ :=
        pacerCallChunk_spec pred uri start (reqSizeOf chunkSize contentLength start)
          contentLength tries s
      rw [uploadLoop_succ_lt pred tries uri chunkSize contentLength fuel start code0 s hlt,
        heqP] at h
      cases errP with
      | some er =>
        simp only [Option.some.injEq, Prod.mk.injEq] at h
        obtain ⟨rfl, rfl, rfl⟩ := h
        refine ⟨⟨List.replicate (k0 + 1) (Event.chunkCall true uri start
            (reqSizeOf chunkSize contentLength start)
            (contentRangeHeader start (reqSizeOf chunkSize contentLength start)
              contentLength)), by simp, ?_, ?_, ?_⟩,
          ⟨k0 + 1, by simp, by simp⟩, ?_, ?_⟩
        · intro ev hev
          rw [List.eq_of_mem_replicate hev]; rfl
        · intro _
          exact List.mem_replicate.mpr ⟨by omega, rfl⟩
        · intro hd; exact absurd hd (by simp)
        · intro hd; exact absurd hd (by simp)
        · intro e he c
          injection he with hee
          subst hee
          exact fun hcon => hnincP c (by rw [hcon])
      | none =>
        have hrec := h
        obtain ⟨⟨Δ1, htr, hpace, hmem1, hblocks⟩, ⟨k1, hscript, hret⟩, hcode, hninc2⟩ :=
          ih (start + reqSizeOf chunkSize contentLength start) codeP
            ⟨s.script.drop (k0 + 1),
             List.foldl (fun r o => updateRet o r) s.ret (s.script.take (k0 + 1)),
             s.trace ++ List.replicate (k0 + 1) (Event.chunkCall true uri start
               (reqSizeOf chunkSize contentLength start)
               (contentRangeHeader start (reqSizeOf chunkSize contentLength start)
                 contentLength))⟩ s1 code ex hrec
        refine ⟨⟨List.replicate (k0 + 1) (Event.chunkCall true uri start
            (reqSizeOf chunkSize contentLength start)
            (contentRangeHeader start (reqSizeOf chunkSize contentLength start)
              contentLength)) ++ Δ1, ?_, ?_, ?_, ?_⟩,
          ⟨(k0 + 1) + k1, ?_, ?_⟩, ?_, hninc2⟩
        · rw [htr]; simp [List.append_assoc]
        · intro ev hev
          rcases List.mem_append.mp hev with hev | hev
          · rw [List.eq_of_mem_replicate hev]; rfl
          · exact hpace ev hev
        · intro _
          exact List.mem_append.mpr (Or.inl (List.mem_replicate.mpr ⟨by omega, rfl⟩))
        · intro hd
          exact ChunkCallBlocks.step start k0 Δ1 hlt (hblocks hd)
        · rw [hscript]; simp [List.drop_drop]
        · rw [hret]
          simp only [← List.foldl_append, ← List.take_add]
        · intro hd
          rcases hcode hd with hc | hc
          · rcases himpP rfl with h8 | h2
            · exact Or.inr (Or.inl (hc.trans h8))
            · exact Or.inr (Or.inr (hc ▸ h2))
          · exact Or.inr hc
    · rw [uploadLoop_ge pred tries uri chunkSize contentLength (fuel + 1) start code0 s hlt] at h
      simp only [Option.some.injEq, Prod.mk.injEq] at h
      obtain ⟨rfl, rfl, rfl⟩ := h
      refine ⟨⟨[], by simp, by simp, fun hc => absurd hc hlt, fun _ => .done start hlt⟩,
        ⟨0, by simp, by simp⟩, fun _ => Or.inl rfl, fun e he => absurd he (by simp)⟩

/-- With a positive chunk size and bytes remaining, the request size is
positive. -/
theorem reqSizeOf_pos (chunkSize contentLength start : Int)
    (hC : 0 < chunkSize) (h : start < contentLength) :
    0 < reqSizeOf chunkSize contentLength start := by
  unfold reqSizeOf; split <;> omega

/-- The request size never exceeds the remaining bytes. -/
theorem reqSizeOf_le (chunkSize contentLength start : Int) :
    reqSizeOf chunkSize contentLength start ≤ contentLength - start := by
  unfold reqSizeOf; split <;> omega

/-- sentPairs distributes over append. -/
theorem sentPairs_append (a b : List Event) :
    sentPairs (a ++ b) = sentPairs a ++ sentPairs b :=
  List.filterMap_append a b _

/-- The pairs of a replicated chunk call. -/
theorem sentPairs_replicate (n : Nat) (p : Bool) (u : String)
    (st sz : Int) (r : String) :
    sentPairs (List.replicate n (Event.chunkCall p u st sz r))
      = List.replicate n (st, sz) := by
  induction n with
  | zero => rfl
  | succ n ih => simp [List.replicate_succ, sentPairs]

/-- Collapsing a non-empty block of one repeated element is collapsing a
single copy. -/
theorem dedupAdj_replicate (p : Int × Int) :
    ∀ (k : Nat) (rest : List (Int × Int)),
    dedupAdj (List.replicate (k + 1) p ++ rest) = dedupAdj (p :: rest) := by
  intro k
  induction k with
  | zero => intro rest; rfl
  | succ k ih =>
    intro rest
    have h2 : List.replicate (k + 2) p ++ rest
        = p :: (List.replicate (k + 1) p ++ rest) := by
      simp [List.replicate_succ]
    rw [h2]
    have h3 : List.replicate (k + 1) p ++ rest
        = p :: (List.replicate k p ++ rest) := by
      simp [List.replicate_succ]
    rw [h3, dedupAdj, if_pos rfl, ← h3, ih]

/-- The chunk pairs of a block list are empty or start with the pair at the
list's starting offset. -/
theorem blocks_sentPairs_head (uri : String) (chunkSize contentLength : Int) :
    ∀ (start : Int) (Δ : List Event),
    ChunkCallBlocks uri chunkSize contentLength start Δ →
    sentPairs Δ = [] ∨ ∃ tail, sentPairs Δ
      = (start, reqSizeOf chunkSize contentLength start) :: tail := by
  intro start Δ hb
  cases hb with
  | done _ h => left; rfl
  | step _ k rest h hrest =>
    right
    refine ⟨List.replicate k (start, reqSizeOf chunkSize contentLength start)
      ++ sentPairs rest, ?_⟩
    rw [sentPairs_append, sentPairs_replicate]
    simp [List.replicate_succ]

/-- The distinct chunk ranges of a completed run — consecutive
retransmissions collapsed — form exactly the spec's interval schedule. -/
theorem blocks_dedup_sched (uri : String) (chunkSize contentLength : Int)
    (hC : 0 < chunkSize) :
    ∀ (start : Int) (Δ : List Event),
    ChunkCallBlocks uri chunkSize contentLength start Δ →
    IsSched chunkSize contentLength start (dedupAdj (sentPairs Δ)) := by
  intro start Δ hb
  induction hb with
  | done start h =>
    simpa [sentPairs, dedupAdj] using @IsSched.done chunkSize contentLength start h
  | step start k rest h hrest ih =>
    rw [sentPairs_append, sentPairs_replicate,
      dedupAdj_replicate (start, reqSizeOf chunkSize contentLength start) k
        (sentPairs rest)]
    rcases blocks_sentPairs_head uri chunkSize contentLength _ rest hrest with
      hnil | ⟨tail, htail⟩
    · rw [hnil] at ih ⊢
      exact IsSched.step start [] h ih
    · have hne : (start, reqSizeOf chunkSize contentLength start)
          ≠ (start + reqSizeOf chunkSize contentLength start,
             reqSizeOf chunkSize contentLength
               (start + reqSizeOf chunkSize contentLength start)) := by
        have := reqSizeOf_pos chunkSize contentLength start hC h
        intro hcontra
        have hfst := congrArg Prod.fst hcontra
        simp only at hfst
        omega
      rw [htail, dedupAdj, if_neg hne, ← htail]
      exact IsSched.step start _ h ih

/-- The intervals of a schedule starting at `start` sum to the remaining
byte count. -/
theorem sched_sum (chunkSize contentLength : Int) :
    ∀ (start : Int) (l : List (Int × Int)),
    IsSched chunkSize contentLength start l → start ≤ contentLength →
    sumLens l = contentLength - start := by
  intro start l h
  induction h with
  | done start h => intro hle; simp [sumLens]; omega
  | step start rest h hrest ih =>
    intro _
    have hle2 := reqSizeOf_le chunkSize contentLength start
    have := ih (by omega)
    simp only [sumLens, List.map_cons, List.sum_cons] at this ⊢
    omega

/-- A negotiation round whose first response is 2xx succeeds at once with
that response's status and headers. -/
theorem pacerCallNegotiate_2xx (pred : UploadErr → Bool) (tries : Nat)
    (st : Nat) (hs : List (String × String)) (b : BodyDecode)
    (rest : List HttpOutcome) (trace : List Event) (h2xx : is2xx st = true) :
    pacerCallNegotiate pred tries (.response st hs b :: rest) trace
      = (rest, trace ++ [Event.negotiateCall true], .ok (st, hs)) := by
  cases tries <;>
    simp [pacerCallNegotiate, takeResponse, negotiateOnce, checkResponse, h2xx]

/-- Every negotiation round appends only paced negotiation events to the
trace. -/
theorem pacerCallNegotiate_trace (pred : UploadErr → Bool) :
    ∀ (tries : Nat) (script : List HttpOutcome) (trace : List Event),
    ∃ k, (pacerCallNegotiate pred tries script trace).2.1
      = trace ++ List.replicate (k + 1) (Event.negotiateCall true) := by
  intro tries
  induction tries with
  | zero =>
    intro script trace
    refine ⟨0, ?_⟩
    cases hb : (negotiateOnce pred (takeResponse script).1).1 <;>
      simp [pacerCallNegotiate, hb, List.replicate_succ]
  | succ t ih =>
    intro script trace
    cases hb : (negotiateOnce pred (takeResponse script).1).1 with
    | false =>
      refine ⟨0, ?_⟩
      simp [pacerCallNegotiate, hb, List.replicate_succ]
    | true =>
      obtain ⟨k, hk⟩ := ih (takeResponse script).2 (trace ++ [Event.negotiateCall true])
      refine ⟨k + 1, ?_⟩
      have hstep : pacerCallNegotiate pred (t + 1) script trace
          = pacerCallNegotiate pred t (takeResponse script).2
              (trace ++ [Event.negotiateCall true]) := by
        simp [pacerCallNegotiate, hb]
      rw [hstep, hk, List.append_assoc]
      simp [List.replicate_succ]

/-- C1: the status probe on a session where the server reports
`Range: 0-99` returns 99 — the last byte index itself — not 100 as the
claim (and the function's own documentation, "the amount transferred so
far") requires: the `+ 1` for the inclusive range end is missing. -/
theorem transferStatus_range_0_99 :
    transferStatus 1000 (.response 308 [("Range", "0-99")] (.ok none))
      = .ok 99 := by
  rfl

/-- C2 counterexample: a negotiation response with status 200 and no
`Location` header does not fail the call — the chunk loop is entered with
the empty session URI and a chunk request is issued, where the claim
demands a fatal error with zero chunk requests. -/
theorem fsUpload_missing_location_sends_chunk :
    (fsUpload specRetryPred 3 1 1 3 [.response 200 [] (.ok none)]
        [.response 403 [] (.ok none)]).map
        (fun r => (numChunkCalls r.2, r.2))
      = some (1, [.negotiateCall true, .chunkCall true "" 0 1 "bytes 0-0/1"]) := by
  rfl

/-- C3 counterexample: an upload with `totalSize = 0` terminates with no
chunk request sent and no result populated — returning the
incomplete-upload error with last status 0 — where the claim demands one
of the two. -/
theorem rxUpload_zero_size_no_chunk_no_result :
    (rxUpload specRetryPred 3 "uri" 4 0 3 ⟨[], none, []⟩).map
        (fun r => (numChunkCalls r.1.trace, r.1.ret, isIncomplete r.2.1, r.2.2))
      = some (0, none, true, 0) := by
  rfl

/-- C3 amended: for `totalSize = 0` the transfer loop always terminates
immediately — no chunk request, `rx.ret` never populated — and returns the
incomplete-upload retryable error with last status code 0. -/
theorem rxUpload_zero_size_incomplete (pred : UploadErr → Bool) (tries : Nat)
    (uri : String) (chunkSize : Int) (fuel : Nat) (script : List HttpOutcome) :
    rxUpload pred tries uri chunkSize 0 fuel ⟨script, none, []⟩
      = some (⟨script, none, []⟩, .error (.incompleteUpload 0), 0) := by
  simp [rxUpload,
    uploadLoop_ge pred tries uri chunkSize 0 fuel 0 0 ⟨script, none, []⟩ (by omega)]

/-- C6 counterexample: a run whose only chunk response is a non-retryable
403 terminates without a populated Metadata record, yet returns the
per-chunk CheckResponse error, not the incomplete-upload failure. -/
theorem rxUpload_per_chunk_error_counterexample :
    (rxUpload specRetryPred 3 "u" 1 1 3
        ⟨[.response 403 [] (.ok none)], none, []⟩).map
        (fun r => (r.1.ret, isIncomplete r.2.1, r.2.1))
      = some (none, false, .error (.googleapi 403)) := by
  rfl

/-- C6 amended: when the transfer loop terminates by completing the loop
(not by a per-chunk error return) with `rx.ret` still unpopulated, the
returned error is the distinguished incomplete-upload retryable failure
carrying the last observed status code. -/
theorem rxUpload_done_without_ret_incomplete (pred : UploadErr → Bool)
    (tries : Nat) (uri : String) (chunkSize contentLength : Int) (fuel : Nat)
    (s s1 : RxState) (code : Nat)
    (hloop : uploadLoop pred tries uri chunkSize contentLength fuel 0 0 s
      = some (s1, code, .done))
    (hret : s1.ret = none) :
    rxUpload pred tries uri chunkSize contentLength fuel s
      = some (s1, .error (.incompleteUpload code), code) := by
  simp [rxUpload, hloop, hret]

/-- Witness for C6 amended: a single accepted chunk (status 308) completes
a 1-byte loop with `rx.ret` unpopulated; the incomplete-upload error with
code 308 is returned. -/
theorem rxUpload_done_without_ret_incomplete_witness :
    rxUpload specRetryPred 3 "u" 1 1 3 ⟨[.response 308 [] (.ok none)], none, []⟩
      = some (⟨[], none, [.chunkCall true "u" 0 1 "bytes 0-0/1"]⟩,
          .error (.incompleteUpload 308), 308) :=
  rxUpload_done_without_ret_incomplete specRetryPred 3 "u" 1 1 3
    ⟨[.response 308 [] (.ok none)], none, []⟩
    ⟨[], none, [.chunkCall true "u" 0 1 "bytes 0-0/1"]⟩ 308 (by rfl) (by rfl)

/-- C7: the status-code-driven override in the chunk-send closure — any
attempt whose status code is 308, 200 or 201 is classified as success (no
retry, no error), whatever error was reported alongside it. -/
theorem chunkClassify_terminal_override (pred : UploadErr → Bool) (code : Nat)
    (e : Option UploadErr) (h : code = 308 ∨ code = 200 ∨ code = 201) :
    chunkClassify pred code e = (false, none) := by
  rcases h with h | h | h <;> simp [chunkClassify, h]

/-- Witness for C7: a transport error reported alongside status 308 is
treated as success. -/
theorem chunkClassify_terminal_override_witness :
    chunkClassify (fun _ => true) 308 (some (.transport "connection reset"))
      = (false, none) :=
  chunkClassify_terminal_override (fun _ => true) 308
    (some (.transport "connection reset")) (Or.inl rfl)

/-- C9 counterexample: a single chunk answered 202 with a decodable body
populates `rx.ret` and the upload returns it, though no chunk response ever
carried the terminal success status 200 or 201. -/
theorem ret_populated_by_202_counterexample :
    (rxUpload specRetryPred 3 "u" 1 1 3
        ⟨[.response 202 [] (.ok (some ⟨"f1"⟩))], none, []⟩).map
        (fun r => (r.1.ret, r.2.2))
      = some (some ⟨"f1"⟩, 202)
    ∧ hasTerminalStatus [.response 202 [] (.ok (some ⟨"f1"⟩))] = false := by
  exact ⟨rfl, rfl⟩

/-- Inversion: a result of the upload entry point comes from a loop run
ending in the same state with the same last status code. -/
theorem rxUpload_loop_state (pred : UploadErr → Bool) (tries : Nat)
    (uri : String) (chunkSize contentLength : Int) (fuel : Nat) (s : RxState)
    (r : RxState × Except UploadErr DriveFile × Nat)
    (h : rxUpload pred tries uri chunkSize contentLength fuel s = some r) :
    ∃ ex, uploadLoop pred tries uri chunkSize contentLength fuel 0 0 s
      = some (r.1, r.2.2, ex) := by
  cases hloop : uploadLoop pred tries uri chunkSize contentLength fuel 0 0 s with
  | none =>
    rw [show rxUpload pred tries uri chunkSize contentLength fuel s = none from by
      simp [rxUpload, hloop]] at h
    exact absurd h (by simp)
  | some t =>
    obtain ⟨s1, code, ex⟩ := t
    cases ex with
    | earlyErr e =>
      rw [show rxUpload pred tries uri chunkSize contentLength fuel s
          = some (s1, .error e, code) from by simp [rxUpload, hloop]] at h
      simp only [Option.some.injEq] at h
      subst h
      exact ⟨.earlyErr e, rfl⟩
    | done =>
      cases hret : s1.ret with
      | none =>
        rw [show rxUpload pred tries uri chunkSize contentLength fuel s
            = some (s1, .error (.incompleteUpload code), code) from by
          simp [rxUpload, hloop, hret]] at h
        simp only [Option.some.injEq] at h
        subst h
        exact ⟨.done, rfl⟩
      | some f =>
        rw [show rxUpload pred tries uri chunkSize contentLength fuel s
            = some (s1, .ok f, code) from by simp [rxUpload, hloop, hret]] at h
        simp only [Option.some.injEq] at h
        subst h
        exact ⟨.done, rfl⟩

/-- Inversion: a successful upload result comes from a completed loop whose
final state holds the returned record. -/
theorem rxUpload_ok_from_done (pred : UploadErr → Bool) (tries : Nat)
    (uri : String) (chunkSize contentLength : Int) (fuel : Nat) (s s1 : RxState)
    (f : DriveFile) (code : Nat)
    (h : rxUpload pred tries uri chunkSize contentLength fuel s
      = some (s1, .ok f, code)) :
    uploadLoop pred tries uri chunkSize contentLength fuel 0 0 s
      = some (s1, code, .done) ∧ s1.ret = some f := by
  cases hloop : uploadLoop pred tries uri chunkSize contentLength fuel 0 0 s with
  | none =>
    rw [show rxUpload pred tries uri chunkSize contentLength fuel s = none from by
      simp [rxUpload, hloop]] at h
    exact absurd h (by simp)
  | some t =>
    obtain ⟨s2, code2, ex⟩ := t
    cases ex with
    | earlyErr e =>
      rw [show rxUpload pred tries uri chunkSize contentLength fuel s
          = some (s2, .error e, code2) from by simp [rxUpload, hloop]] at h
      simp at h
    | done =>
      cases hret : s2.ret with
      | none =>
        rw [show rxUpload pred tries uri chunkSize contentLength fuel s
            = some (s2, .error (.incompleteUpload code2), code2) from by
          simp [rxUpload, hloop, hret]] at h
        simp at h
      | some f2 =>
        rw [show rxUpload pred tries uri chunkSize contentLength fuel s
            = some (s2, .ok f2, code2) from by simp [rxUpload, hloop, hret]] at h
        simp only [Option.some.injEq, Prod.mk.injEq, Except.ok.injEq] at h
        obtain ⟨h1, h2, h3⟩ := h
        subst h1; subst h2; subst h3
        exact ⟨rfl, hret⟩

/-- Inversion: an incomplete-upload failure comes from a completed loop —
never from a per-chunk early error — whose final state has no record; the
carried code is the loop's final status code. -/
theorem rxUpload_incomplete_from_done (pred : UploadErr → Bool) (tries : Nat)
    (uri : String) (chunkSize contentLength : Int) (fuel : Nat) (s s1 : RxState)
    (c code : Nat)
    (h : rxUpload pred tries uri chunkSize contentLength fuel s
      = some (s1, .error (.incompleteUpload c), code)) :
    uploadLoop pred tries uri chunkSize contentLength fuel 0 0 s
      = some (s1, c, .done) ∧ c = code ∧ s1.ret = none := by
  cases hloop : uploadLoop pred tries uri chunkSize contentLength fuel 0 0 s with
  | none =>
    rw [show rxUpload pred tries uri chunkSize contentLength fuel s = none from by
      simp [rxUpload, hloop]] at h
    exact absurd h (by simp)
  | some t =>
    obtain ⟨s2, code2, ex⟩ := t
    cases ex with
    | earlyErr e =>
      obtain ⟨-, -, -, hninc⟩ :=
        uploadLoop_spec pred tries uri chunkSize contentLength fuel 0 0 s s2 code2
          (.earlyErr e) hloop
      rw [show rxUpload pred tries uri chunkSize contentLength fuel s
          = some (s2, .error e, code2) from by simp [rxUpload, hloop]] at h
      simp only [Option.some.injEq, Prod.mk.injEq, Except.error.injEq] at h
      exact absurd h.2.1 (hninc e rfl c)
    | done =>
      cases hret : s2.ret with
      | none =>
        rw [show rxUpload pred tries uri chunkSize contentLength fuel s
            = some (s2, .error (.incompleteUpload code2), code2) from by
          simp [rxUpload, hloop, hret]] at h
        simp only [Option.some.injEq, Prod.mk.injEq, Except.error.injEq,
          UploadErr.incompleteUpload.injEq] at h
        obtain ⟨h1, h2, h3⟩ := h
        subst h1
        subst h3
        subst h2
        exact ⟨rfl, rfl, hret⟩
      | some f2 =>
        rw [show rxUpload pred tries uri chunkSize contentLength fuel s
            = some (s2, .ok f2, code2) from by simp [rxUpload, hloop, hret]] at h
        simp at h

/-- C2 amended: Fs.Upload does not validate the session URI — when the
negotiation response is 2xx with no `Location` header, the session URI is
the empty string and, whenever the upload has a positive size, every
terminating run enters the chunk loop and issues the first chunk request,
addressed to the empty URI. -/
theorem fsUpload_missing_location_enters_loop (pred : UploadErr → Bool)
    (tries : Nat) (chunkSize size : Int) (fuel : Nat) (st : Nat)
    (hs : List (String × String)) (b : BodyDecode)
    (negRest chunkScript : List HttpOutcome)
    (res : Except UploadErr DriveFile) (tr : List Event)
    (h2xx : is2xx st = true) (hloc : headerGet hs "Location" = "")
    (hsize : 0 < size)
    (hrun : fsUpload pred tries chunkSize size fuel
      (.response st hs b :: negRest) chunkScript = some (res, tr)) :
    Event.chunkCall true "" 0 (reqSizeOf chunkSize size 0)
      (contentRangeHeader 0 (reqSizeOf chunkSize size 0) size) ∈ tr := by
  unfold fsUpload at hrun
  rw [pacerCallNegotiate_2xx pred tries st hs b negRest [] h2xx] at hrun
  simp only [List.nil_append, hloc] at hrun
  cases hrx : rxUpload pred tries "" chunkSize size fuel
      ⟨chunkScript, none, [Event.negotiateCall true]⟩ with
  | none => rw [hrx] at hrun; exact absurd hrun (by simp)
  | some r =>
    rw [hrx] at hrun
    simp only [Option.some.injEq] at hrun
    obtain ⟨ex, hloop⟩ :=
      rxUpload_loop_state pred tries "" chunkSize size fuel _ r hrx
    obtain ⟨⟨Δ, htrace, -, hmem, -⟩, -, -, -⟩ :=
      uploadLoop_spec pred tries "" chunkSize size fuel 0 0 _ r.1 r.2.2 ex hloop
    have htr2 : tr = r.1.trace := (congrArg Prod.snd hrun).symm
    rw [htr2, htrace]
    exact List.mem_append.mpr (Or.inr (hmem hsize))

/-- Witness for C2 amended: negotiation answers 200 with no headers, the
1-byte upload enters the loop and sends one chunk to the empty URI. -/
theorem fsUpload_missing_location_enters_loop_witness :
    Event.chunkCall true "" 0 (reqSizeOf 1 1 0) (contentRangeHeader 0 (reqSizeOf 1 1 0) 1)
      ∈ [Event.negotiateCall true, Event.chunkCall true "" 0 1 "bytes 0-0/1"] :=
  fsUpload_missing_location_enters_loop specRetryPred 3 1 1 3 200 [] (.ok none)
    [] [.response 403 [] (.ok none)] (.error (.googleapi 403))
    [Event.negotiateCall true, Event.chunkCall true "" 0 1 "bytes 0-0/1"]
    (by decide) (by rfl) (by decide) (by rfl)

/-- C4: the Content-Range sequence of a successful run partitions the
payload: the whole trace is one block of identical sends per loop iteration
(`ChunkCallBlocks`, which fixes each block's Content-Range string to
`contentRangeHeader start reqSize total` with `reqSize = min(C, total - start)`);
with consecutive retransmissions collapsed, the interval pairs form the
spec's disjoint contiguous ascending schedule from offset 0, whose lengths
sum to the total. -/
theorem rxUpload_ranges_partition (pred : UploadErr → Bool) (tries : Nat)
    (uri : String) (chunkSize contentLength : Int) (fuel : Nat)
    (script : List HttpOutcome) (s1 : RxState) (f : DriveFile) (code : Nat)
    (hC : 0 < chunkSize)
    (h : rxUpload pred tries uri chunkSize contentLength fuel
      ⟨script, none, []⟩ = some (s1, .ok f, code)) :
    ChunkCallBlocks uri chunkSize contentLength 0 s1.trace
    ∧ IsSched chunkSize contentLength 0 (dedupAdj (sentPairs s1.trace))
    ∧ (0 ≤ contentLength → sumLens (dedupAdj (sentPairs s1.trace)) = contentLength) := by
  obtain ⟨hloop, -⟩ := rxUpload_ok_from_done pred tries uri chunkSize contentLength
    fuel ⟨script, none, []⟩ s1 f code h
  obtain ⟨⟨Δ, htrace, -, -, hblocks⟩, -, -, -⟩ :=
    uploadLoop_spec pred tries uri chunkSize contentLength fuel 0 0
      ⟨script, none, []⟩ s1 code .done hloop
  rw [List.nil_append] at htrace
  rw [htrace]
  have hb := hblocks rfl
  refine ⟨hb, blocks_dedup_sched uri chunkSize contentLength hC 0 Δ hb, fun h0 => ?_⟩
  have := sched_sum chunkSize contentLength 0 (dedupAdj (sentPairs Δ))
    (blocks_dedup_sched uri chunkSize contentLength hC 0 Δ hb) (by omega)
  omega

/-- Witness for C4: Scenario A — totalSize 10, chunk size 4, all three
chunks accepted first try (308, 308, then 201 with the record) — yields the
block structure, the schedule [(0,4), (4,4), (8,2)] after collapsing, and a
length sum of 10; the ranges sent are exactly bytes 0-3/10, 4-7/10,
8-9/10. -/
theorem rxUpload_ranges_partition_witness :
    (ChunkCallBlocks "u" 4 10 0
      [.chunkCall true "u" 0 4 "bytes 0-3/10", .chunkCall true "u" 4 4 "bytes 4-7/10",
       .chunkCall true "u" 8 2 "bytes 8-9/10"]
    ∧ IsSched 4 10 0 (dedupAdj (sentPairs
        [.chunkCall true "u" 0 4 "bytes 0-3/10", .chunkCall true "u" 4 4 "bytes 4-7/10",
         .chunkCall true "u" 8 2 "bytes 8-9/10"]))
    ∧ (0 ≤ (10 : Int) → sumLens (dedupAdj (sentPairs
        [.chunkCall true "u" 0 4 "bytes 0-3/10", .chunkCall true "u" 4 4 "bytes 4-7/10",
         .chunkCall true "u" 8 2 "bytes 8-9/10"])) = 10)) :=
  rxUpload_ranges_partition specRetryPred 3 "u" 4 10 5
    [.response 308 [] (.ok none), .response 308 [] (.ok none),
     .response 201 [] (.ok (some ⟨"f1"⟩))]
    ⟨[], some ⟨"f1"⟩,
      [.chunkCall true "u" 0 4 "bytes 0-3/10", .chunkCall true "u" 4 4 "bytes 4-7/10",
       .chunkCall true "u" 8 2 "bytes 8-9/10"]⟩
    ⟨"f1"⟩ 201 (by decide) (by rfl)

/-- C5: within one pacer round the cursor never moves — every attempt
resends the same chunk with identical offset and Content-Range — and in the
concrete Scenario B (chunk 2 of 3 hit by two transport errors, then 308)
start stays at 4 for exactly three attempts, after which the 308 advances
it by exactly reqSize = 4 to the final chunk at offset 8; the run then
succeeds with status 201. -/
theorem rxUpload_retry_same_chunk_then_advance :
    (∀ (pred : UploadErr → Bool) (tries : Nat) (uri : String)
      (start reqSize contentLength : Int) (s : RxState),
      ∃ k : Nat, (pacerCallChunk pred tries uri start reqSize contentLength s).1.trace
        = s.trace ++ List.replicate (k + 1)
            (Event.chunkCall true uri start reqSize
              (contentRangeHeader start reqSize contentLength)))
    ∧ (rxUpload specRetryPred 10 "u" 4 10 10
        ⟨[.response 308 [] (.ok none), .transportErr "reset", .transportErr "reset",
          .response 308 [] (.ok none), .response 201 [] (.ok (some ⟨"f1"⟩))],
         none, []⟩).map (fun r => (sentPairs r.1.trace, r.2.1, r.2.2))
      = some ([(0, 4), (4, 4), (4, 4), (4, 4), (8, 2)], .ok ⟨"f1"⟩, 201) := by
  constructor
  · intro pred tries uri start reqSize contentLength s
    obtain ⟨k, code, err, heq, -, -⟩ :=
      pacerCallChunk_spec pred uri start reqSize contentLength tries s
    exact ⟨k, by rw [heq]⟩
  · rfl

/-- C10 counterexample: a run ending in the incomplete-upload failure whose
last observed status code is 308 — not one of the sentinel codes 599/598
the claim says appear there. -/
theorem incomplete_code_not_sentinel_counterexample :
    (rxUpload specRetryPred 3 "u" 1 1 3
        ⟨[.response 308 [] (.ok none)], none, []⟩).map
        (fun r => (isIncomplete r.2.1, r.2.2))
      = some (true, 308)
    ∧ ¬ ((308 : Nat) = 599 ∨ (308 : Nat) = 598) := by
  exact ⟨rfl, by decide⟩

/-- allPaced distributes over append. -/
theorem allPaced_append (a b : List Event) :
    allPaced (a ++ b) = (allPaced a && allPaced b) := List.all_append

/-- C8 counterexample: the status probe's network call is issued outside
the pacer — its trace event is unpaced — so not every network call of this
component goes through the shared retry/backoff primitive. -/
theorem probe_not_paced_counterexample :
    allPaced ((transferStatusTraced 100
      (.response 308 [("Range", "0-99")] (.ok none)) []).2) = false := by
  rfl

/-- C8 amended: the negotiation attempts and every chunk attempt of any
terminating Fs.Upload run are all issued inside pacer.Call, but the status
probe is not: transferStatus calls the client directly and its single
network event is unpaced. -/
theorem fsUpload_calls_paced_probe_unpaced :
    (∀ (pred : UploadErr → Bool) (tries : Nat) (chunkSize size : Int)
      (fuel : Nat) (negScript chunkScript : List HttpOutcome)
      (res : Except UploadErr DriveFile) (tr : List Event),
      fsUpload pred tries chunkSize size fuel negScript chunkScript
        = some (res, tr) →
      allPaced tr = true)
    ∧ (∀ (contentLength : Int) (outcome : HttpOutcome) (trace : List Event),
      (transferStatusTraced contentLength outcome trace).2
        = trace ++ [Event.probeCall false]) := by
  constructor
  · intro pred tries chunkSize size fuel negScript chunkScript res tr hrun
    obtain ⟨k, hk⟩ := pacerCallNegotiate_trace pred tries negScript []
    have hnegAll : allPaced (pacerCallNegotiate pred tries negScript []).2.1 = true := by
      rw [hk]
      simp only [List.nil_append, allPaced, List.all_eq_true]
      intro ev hev
      rw [List.eq_of_mem_replicate hev]
      rfl
    cases hng : (pacerCallNegotiate pred tries negScript []).2.2 with
    | error e =>
      rw [show fsUpload pred tries chunkSize size fuel negScript chunkScript
          = some (.error e, (pacerCallNegotiate pred tries negScript []).2.1) from by
        simp [fsUpload, hng]] at hrun
      simp only [Option.some.injEq, Prod.mk.injEq] at hrun
      rw [← hrun.2]
      exact hnegAll
    | ok sh =>
      cases hrx : rxUpload pred tries (headerGet sh.2 "Location") chunkSize size fuel
          ⟨chunkScript, none, (pacerCallNegotiate pred tries negScript []).2.1⟩ with
      | none =>
        rw [show fsUpload pred tries chunkSize size fuel negScript chunkScript
            = none from by simp [fsUpload, hng, hrx]] at hrun
        exact absurd hrun (by simp)
      | some r =>
        rw [show fsUpload pred tries chunkSize size fuel negScript chunkScript
            = some (r.2.1, r.1.trace) from by simp [fsUpload, hng, hrx]] at hrun
        simp only [Option.some.injEq, Prod.mk.injEq] at hrun
        obtain ⟨ex, hloop⟩ := rxUpload_loop_state pred tries
          (headerGet sh.2 "Location") chunkSize size fuel _ r hrx
        obtain ⟨⟨Δ, htrace, hpace, -, -⟩, -, -, -⟩ :=
          uploadLoop_spec pred tries (headerGet sh.2 "Location") chunkSize size
            fuel 0 0 _ r.1 r.2.2 ex hloop
        have htrace2 : r.1.trace
            = (pacerCallNegotiate pred tries negScript []).2.1 ++ Δ := htrace
        have hΔ : allPaced Δ = true := List.all_eq_true.mpr hpace
        rw [← hrun.2, htrace2, allPaced_append, hnegAll, hΔ]
        rfl
  · intro contentLength outcome trace
    rfl

/-- Witness for C8 amended: a concrete terminating Fs.Upload run has an
all-paced trace, while the probe appends its unpaced event. -/
theorem fsUpload_calls_paced_probe_unpaced_witness :
    allPaced [Event.negotiateCall true, Event.chunkCall true "" 0 1 "bytes 0-0/1"]
      = true
    ∧ (transferStatusTraced 100 (.response 308 [("Range", "0-55")] (.ok none)) []).2
        = [] ++ [Event.probeCall false] :=
  ⟨fsUpload_calls_paced_probe_unpaced.1 specRetryPred 3 1 1 3
      [.response 200 [] (.ok none)] [.response 403 [] (.ok none)]
      (.error (.googleapi 403))
      [Event.negotiateCall true, Event.chunkCall true "" 0 1 "bytes 0-0/1"] (by rfl),
   fsUpload_calls_paced_probe_unpaced.2 100
     (.response 308 [("Range", "0-55")] (.ok none)) []⟩

/-- C9 amended: `rx.ret` is governed by the decode-update rule — a chunk
response with any 2xx status (not only 200/201) whose body decodes
overwrites it with the decoded value, a decoded JSON null clearing it, and
every other outcome leaves it unchanged — and after any terminating run
`rx.ret` equals the left fold of this rule over the consumed prefix of the
server script. -/
theorem ret_follows_decode_update_law :
    (∀ (outcome : HttpOutcome) (ret : Option DriveFile),
      (transferChunk outcome ret).2.2 = updateRet outcome ret)
    ∧ (∀ (pred : UploadErr → Bool) (tries : Nat) (uri : String)
        (chunkSize contentLength : Int) (fuel : Nat) (s : RxState)
        (r : RxState × Except UploadErr DriveFile × Nat),
        rxUpload pred tries uri chunkSize contentLength fuel s = some r →
        ∃ k, r.1.ret
          = List.foldl (fun a o => updateRet o a) s.ret (s.script.take k)) := by
  constructor
  · exact transferChunk_ret
  · intro pred tries uri chunkSize contentLength fuel s r h
    obtain ⟨ex, hloop⟩ :=
      rxUpload_loop_state pred tries uri chunkSize contentLength fuel s r h
    obtain ⟨-, ⟨k, -, hret⟩, -, -⟩ :=
      uploadLoop_spec pred tries uri chunkSize contentLength fuel 0 0 s
        r.1 r.2.2 ex hloop
    exact ⟨k, hret⟩

/-- Witness for C9 amended: the 202 response's decoded body is what the
update rule puts into `rx.ret`, and the concrete 202 run's final `rx.ret`
is the fold over the single consumed response. -/
theorem ret_follows_decode_update_law_witness :
    (transferChunk (.response 202 [] (.ok (some ⟨"f1"⟩))) none).2.2
      = updateRet (.response 202 [] (.ok (some ⟨"f1"⟩))) none
    ∧ ∃ k, (some (⟨"f1"⟩ : DriveFile) : Option DriveFile)
        = List.foldl (fun a o => updateRet o a) (none : Option DriveFile)
            ([HttpOutcome.response 202 [] (.ok (some ⟨"f1"⟩))].take k) := by
  refine ⟨ret_follows_decode_update_law.1 _ _, ?_⟩
  exact ret_follows_decode_update_law.2 specRetryPred 3 "u" 1 1 3
    ⟨[.response 202 [] (.ok (some ⟨"f1"⟩))], none, []⟩
    (⟨[], some ⟨"f1"⟩, [Event.chunkCall true "u" 0 1 "bytes 0-0/1"]⟩, .ok ⟨"f1"⟩, 202)
    (by rfl)

/-- C10 amended: a failed round trip reports sentinel code 599 with the
transport error and an undecodable 2xx body reports sentinel code 598 with
the decode error, exactly as claimed; but these sentinels never surface as
the incomplete-upload failure's last-error code — any terminating run
returning that failure carries code 0 (no chunk was sent) or a 308/2xx
status. -/
theorem sentinel_codes_and_incomplete_code :
    (∀ (e : String) (ret : Option DriveFile),
      transferChunk (.transportErr e) ret = (599, some (.transport e), ret))
    ∧ (∀ (st : Nat) (hs : List (String × String)) (e : String)
        (ret : Option DriveFile), is2xx st = true →
        transferChunk (.response st hs (.fail e)) ret
          = (598, some (.decodeErr e), ret))
    ∧ (∀ (pred : UploadErr → Bool) (tries : Nat) (uri : String)
        (chunkSize contentLength : Int) (fuel : Nat) (s s1 : RxState)
        (c code : Nat),
        rxUpload pred tries uri chunkSize contentLength fuel s
          = some (s1, .error (.incompleteUpload c), code) →
        c = 0 ∨ c = 308 ∨ is2xx c = true) := by
  refine ⟨fun e ret => rfl, ?_, ?_⟩
  · intro st hs e ret h2
    have h8 : ¬ st = 308 := by
      intro hc; subst hc; exact absurd h2 (by decide)
    simp [transferChunk, checkResponse, h2, h8]
  · intro pred tries uri chunkSize contentLength fuel s s1 c code h
    obtain ⟨hloop, -, -⟩ := rxUpload_incomplete_from_done pred tries uri chunkSize
      contentLength fuel s s1 c code h
    obtain ⟨-, -, hcode, -⟩ :=
      uploadLoop_spec pred tries uri chunkSize contentLength fuel 0 0 s s1 c
        .done hloop
    exact hcode rfl

/-- Witness for C10 amended: the sentinel equations at concrete inputs, and
the incomplete-upload code of the concrete single-308 run is 308, in the
allowed set. -/
theorem sentinel_codes_and_incomplete_code_witness :
    transferChunk (.transportErr "reset") none
      = (599, some (.transport "reset"), none)
    ∧ transferChunk (.response 200 [] (.fail "bad json")) none
        = (598, some (.decodeErr "bad json"), none)
    ∧ ((308 : Nat) = 0 ∨ (308 : Nat) = 308 ∨ is2xx 308 = true) :=
  ⟨sentinel_codes_and_incomplete_code.1 "reset" none,
   sentinel_codes_and_incomplete_code.2.1 200 [] "bad json" none (by decide),
   sentinel_codes_and_incomplete_code.2.2 specRetryPred 3 "u" 1 1 3
     ⟨[.response 308 [] (.ok none)], none, []⟩
     ⟨[], none, [.chunkCall true "u" 0 1 "bytes 0-0/1"]⟩ 308 308 (by rfl)⟩

end DriveUpload
